import Mathlib

/-!
Verification of the geometric kernel of the icfp2016-teamsuperlegit repository
(src/core/geom.rs, src/matrix.rs, src/write.rs).

The kernel is generic over a scalar trait `Num` whose implementation
(core/mod.rs) is not among the repository's staged files.  Following the
specification, the scalar domain is modelled as the exact rationals with the
epsilon-tolerant operations the spec describes (epsilon-tolerant equality,
optional division, double-precision square root for distances).  Every
geometric routine below is a direct translation of the corresponding Rust
function in src/core/geom.rs, src/matrix.rs or src/write.rs.
-/

namespace SuperLegit

attribute [local semireducible] Rat.add Rat.mul Rat.inv Rat.sub

/-- Floor of a rational, computed from the numerator and denominator (the
denominator of a `Rat` is positive, so this is the usual floor). -/
def ratFloor (q : ℚ) : ℤ := q.num.fdiv q.den

/-- Modelled from the spec: the fixed epsilon threshold of the missing `Num`
scalar trait (core/mod.rs is not under src/).  The value 1e-9 matches the
literal threshold used by src/write.rs and the behaviour of the repository's
own equality tests (differences of 1e-10 compare equal). -/
def EPS : ℚ := 1 / 1000000000

/-- Modelled from the spec: `eq_eps` of the missing `Num` trait — epsilon
tolerant equality ("the fixed small threshold used to treat values as equal
despite representation noise"). -/
def eqEps (a b : ℚ) : Bool := |a - b| < EPS

/-- Modelled from the spec: `divide` of the missing `Num` trait — "division by
a zero-equivalent value yields an optional/absent result". -/
def divide (a b : ℚ) : Option ℚ := if eqEps b 0 then none else some (a / b)

/-- Fuel-driven integer Newton iteration, used to model the double-precision
square root of the missing scalar trait. -/
def isqrtGo : Nat → Nat → Nat → Nat
  | 0, _, x => x
  | fuel + 1, n, x =>
    let y := (x + n / x) / 2
    if y < x then isqrtGo fuel n y else x

/-- Integer square root (floor) by Newton iteration with ample fuel. -/
def isqrt (n : Nat) : Nat := if n ≤ 1 then n else isqrtGo 200 n n

/-- Modelled from the spec: the square root performed through the
double-precision conversion of the missing `Num` trait ("conversion to double
precision for transcendental operations (trig, sqrt)").  It is computed here
in fixed-point with 12 fractional digits, exact on the perfect squares the
kernel relies on and within far less than any geometric tolerance elsewhere. -/
def sqrtApprox (q : ℚ) : ℚ :=
  if q ≤ 0 then 0 else ((isqrt (Int.toNat (ratFloor (q * 10 ^ 24))) : ℚ)) / 10 ^ 12

/-- `Point` of src/core/geom.rs: an immutable pair of scalars. -/
structure Point where
  x : ℚ
  y : ℚ
deriving DecidableEq

/-- Componentwise subtraction of points (the `Sub` impl of the missing
operator module; used as `&a.p2 - &a.p1` throughout geom.rs). -/
def Point.sub (a b : Point) : Point := ⟨a.x - b.x, a.y - b.y⟩

/-- Componentwise addition of points (the `Add` impl used as `&a.p1 + ...`). -/
def Point.add (a b : Point) : Point := ⟨a.x + b.x, a.y + b.y⟩

/-- `Point::scale` of src/core/geom.rs. -/
def Point.scale (p : Point) (alpha : ℚ) : Point := ⟨p.x * alpha, p.y * alpha⟩

/-- Modelled from the spec: the `PartialEq` of `Point` ("Equality is
domain-equality on both coordinates", epsilon-tolerant per coordinate). -/
def peq (a b : Point) : Bool := eqEps a.x b.x && eqEps a.y b.y

/-- `cross_scalar` of src/core/geom.rs. -/
def crossScalar (a b : Point) : ℚ := a.x * b.y - a.y * b.x

/-- `Line` of src/core/geom.rs: a directed segment between two points. -/
structure Line where
  p1 : Point
  p2 : Point
deriving DecidableEq

/-- `Line::new` of src/core/geom.rs. -/
def Line.new (p1 p2 : Point) : Line := ⟨p1, p2⟩

/-- `v_distance` of src/core/geom.rs: axis-aligned differences avoid the
square root; the general case goes through the double-precision square
root of the scalar trait. -/
def vDistance (p : Point) : ℚ :=
  if eqEps p.x 0 then |p.y|
  else if eqEps p.y 0 then |p.x|
  else sqrtApprox (p.x * p.x + p.y * p.y)

/-- `p_distance` of src/core/geom.rs. -/
def pDistance (p1 p2 : Point) : ℚ := vDistance (p1.sub p2)

/-- `Line::len` of src/core/geom.rs. -/
def Line.len (l : Line) : ℚ := pDistance l.p1 l.p2

/-- `Line::coincident` of src/core/geom.rs: point lies on the finite segment
iff the two partial distances sum to the length, within epsilon. -/
def Line.coincident (l : Line) (point : Point) : Bool :=
  eqEps (pDistance l.p1 point + pDistance point l.p2) l.len

/-- `Line::interpolate` of src/core/geom.rs. -/
def Line.interpolate (l : Line) (alpha : ℚ) : Point :=
  l.p1.add ((l.p2.sub l.p1).scale alpha)

/-- `Line::dist_along` of src/core/geom.rs. -/
def Line.distAlong (l : Line) (p : Point) : ℚ := pDistance l.p1 p / l.len

/-- `Matrix33` of src/matrix.rs: a 3×3 homogeneous matrix, stored row-major. -/
structure Matrix33 where
  m00 : ℚ
  m01 : ℚ
  m02 : ℚ
  m10 : ℚ
  m11 : ℚ
  m12 : ℚ
  m20 : ℚ
  m21 : ℚ
  m22 : ℚ
deriving DecidableEq

/-- `Matrix33::new` of src/matrix.rs (three rows). -/
def Matrix33.new (r0 r1 r2 : ℚ × ℚ × ℚ) : Matrix33 :=
  ⟨r0.1, r0.2.1, r0.2.2, r1.1, r1.2.1, r1.2.2, r2.1, r2.2.1, r2.2.2⟩

/-- The entry at (row, col), rows and columns 0..2; total version used to
state the checked accessor.  Out-of-range pairs (never produced by the
checked accessor) default to 0. -/
def Matrix33.entry (m : Matrix33) : Nat → Nat → ℚ
  | 0, 0 => m.m00
  | 0, 1 => m.m01
  | 0, 2 => m.m02
  | 1, 0 => m.m10
  | 1, 1 => m.m11
  | 1, 2 => m.m12
  | 2, 0 => m.m20
  | 2, 1 => m.m21
  | 2, 2 => m.m22
  | _, _ => 0

/-- The `Index` impl for `Matrix33` of src/matrix.rs: `assert!(index.0 < 3 &&
index.1 < 3)` guards the array access.  The fatal assertion failure is
modelled as `none`; a successful access as `some` of the entry. -/
def Matrix33.indexChecked (m : Matrix33) (r c : Nat) : Option ℚ :=
  if r < 3 && c < 3 then some (m.entry r c) else none

/-- `Matrix33::scale` of src/matrix.rs. -/
def Matrix33.scaleM (sx sy : ℚ) : Matrix33 :=
  Matrix33.new (sx, 0, 0) (0, sy, 0) (0, 0, 1)

/-- `Matrix33::translate` of src/matrix.rs. -/
def Matrix33.translate (tx ty : ℚ) : Matrix33 :=
  Matrix33.new (1, 0, 0) (0, 1, 0) (tx, ty, 1)

/-- Modelled from the spec: the two-argument `Matrix33::rotate(sin, cos)`
builder called by geom.rs but absent from the staged historical matrix.rs
(whose one-argument `rotate(angle)` builds the same matrix from the angle's
sine and cosine). -/
def Matrix33.rotateSC (s c : ℚ) : Matrix33 :=
  Matrix33.new (c, s, 0) (-s, c, 0) (0, 0, 1)

/-- Modelled from the spec: `Matrix33::identity` used by `Polygon::new`
("a root Polygon is created with an identity transform"); absent from the
staged matrix.rs. -/
def Matrix33.identity : Matrix33 :=
  Matrix33.new (1, 0, 0) (0, 1, 0) (0, 0, 1)

/-- `Matrix33::transform` of src/matrix.rs, row-vector-on-the-left:
`x' = x*m[0][0] + y*m[1][0] + m[2][0]`, `y' = x*m[0][1] + y*m[1][1] + m[2][1]`. -/
def Matrix33.transform (m : Matrix33) (p : Point) : Point :=
  ⟨p.x * m.m00 + p.y * m.m10 + m.m20, p.x * m.m01 + p.y * m.m11 + m.m21⟩

/-- The `Mul` impl for `Matrix33` of src/matrix.rs: the usual row-by-column
product, written out entrywise exactly as the two nested loops compute it. -/
def Matrix33.mul (a b : Matrix33) : Matrix33 :=
  ⟨a.m00 * b.m00 + a.m01 * b.m10 + a.m02 * b.m20,
   a.m00 * b.m01 + a.m01 * b.m11 + a.m02 * b.m21,
   a.m00 * b.m02 + a.m01 * b.m12 + a.m02 * b.m22,
   a.m10 * b.m00 + a.m11 * b.m10 + a.m12 * b.m20,
   a.m10 * b.m01 + a.m11 * b.m11 + a.m12 * b.m21,
   a.m10 * b.m02 + a.m11 * b.m12 + a.m12 * b.m22,
   a.m20 * b.m00 + a.m21 * b.m10 + a.m22 * b.m20,
   a.m20 * b.m01 + a.m21 * b.m11 + a.m22 * b.m21,
   a.m20 * b.m02 + a.m21 * b.m12 + a.m22 * b.m22⟩

/-- Modelled from the spec: `then_rotate` — "Composition `then_X(...)` appends
a subsequent operation", and `A * B` applies `A` then `B`. -/
def Matrix33.thenRotate (m : Matrix33) (s c : ℚ) : Matrix33 :=
  m.mul (Matrix33.rotateSC s c)

/-- Modelled from the spec: `then_scale` (see `Matrix33.thenRotate`). -/
def Matrix33.thenScale (m : Matrix33) (sx sy : ℚ) : Matrix33 :=
  m.mul (Matrix33.scaleM sx sy)

/-- Modelled from the spec: `then_translate` (see `Matrix33.thenRotate`). -/
def Matrix33.thenTranslate (m : Matrix33) (tx ty : ℚ) : Matrix33 :=
  m.mul (Matrix33.translate tx ty)

/-- `Polygon` of src/core/geom.rs: an ordered point sequence plus the affine
transform mapping back to the source frame. -/
structure Polygon where
  points : List Point
  transform : Matrix33
deriving DecidableEq

/-- `Polygon::new` of src/core/geom.rs: the transform defaults to the
identity; the source performs no check on the number of points. -/
def Polygon.new (points : List Point) : Polygon :=
  ⟨points, Matrix33.identity⟩

/-- `Polygon::with_transform` of src/core/geom.rs. -/
def Polygon.withTransform (points : List Point) (transform : Matrix33) : Polygon :=
  ⟨points, transform⟩

/-- One backward rotation of a list: the last element first.  This is the
order in which `Polygon::edges` visits edge start points (its `previous`
index starts at `len - 1`). -/
def rotatePrev {α : Type} (l : List α) : List α :=
  l.reverse.take 1 ++ l.dropLast

/-- `Polygon::edges` of src/core/geom.rs: edge `i` runs from
`points[previous]` to `points[i]`, `previous` starting at the last index. -/
def Polygon.edges (poly : Polygon) : List Line :=
  List.zipWith Line.mk (rotatePrev poly.points) poly.points

/-- `Polygon::double_signed_area` of src/core/geom.rs:
`Σ (x2 - x1) * (y2 + y1)` over the edges. -/
def Polygon.doubleSignedArea (poly : Polygon) : ℚ :=
  poly.edges.foldl (fun sum e => sum + (e.p2.x - e.p1.x) * (e.p2.y + e.p1.y)) 0

/-- `Polygon::area` of src/core/geom.rs: absolute value of half the signed
doubled area. -/
def Polygon.area (poly : Polygon) : ℚ := |poly.doubleSignedArea / 2|

/-- `Polygon::inside` of src/core/geom.rs: the pnpoly ray-casting parity
test, one toggle per crossing edge. -/
def Polygon.inside (poly : Polygon) (test : Point) : Bool :=
  let pts := poly.points
  let n := pts.length
  (List.range n).foldl
    (fun contains offset =>
      let q1 := pts.getD offset ⟨0, 0⟩
      let q2 := pts.getD ((offset + 1) % n) ⟨0, 0⟩
      if (decide (q1.y > test.y) != decide (q2.y > test.y)) &&
          decide (test.x < (q2.x - q1.x) * (test.y - q1.y) / (q2.y - q1.y) + q1.x) then
        !contains
      else contains)
    false

/-- `Polygon::coincident` of src/core/geom.rs: the point lies on some
boundary segment. -/
def Polygon.coincidentB (poly : Polygon) (test : Point) : Bool :=
  let pts := poly.points
  let n := pts.length
  (List.range n).any fun offset =>
    (Line.new (pts.getD offset ⟨0, 0⟩) (pts.getD ((offset + 1) % n) ⟨0, 0⟩)).coincident test

/-- `Polygon::contains` of src/core/geom.rs: `inside OR coincident`. -/
def Polygon.contains (poly : Polygon) (test : Point) : Bool :=
  poly.inside test || poly.coincidentB test

/-- `intersect_inf` of src/core/geom.rs: infinite-line intersection by the
2×2 determinant formula, `None` when the determinant is epsilon-zero. -/
def intersectInf (a b : Line) : Option Point :=
  let x1 := a.p1.x
  let y1 := a.p1.y
  let x2 := a.p2.x
  let y2 := a.p2.y
  let x3 := b.p1.x
  let y3 := b.p1.y
  let x4 := b.p2.x
  let y4 := b.p2.y
  let d := (x1 - x2) * (y3 - y4) - (y1 - y2) * (x3 - x4)
  if eqEps d 0 then none
  else
    some ⟨((x1 * y2 - y1 * x2) * (x3 - x4) - (x1 - x2) * (x3 * y4 - y3 * x4)) / d,
          ((x1 * y2 - y1 * x2) * (y3 - y4) - (y1 - y2) * (x3 * y4 - y3 * x4)) / d⟩

/-- `intersect_discrete` of src/core/geom.rs: parametric segment
intersection; valid only for `0 ≤ s < 1` and `0 ≤ t ≤ 1`. -/
def intersectDiscrete (a b : Line) : Option Point :=
  let s1 := a.p2.sub a.p1
  let s2 := b.p2.sub b.p1
  let c1 := a.p1.sub b.p1
  match divide (crossScalar s1 c1) (crossScalar s1 s2),
        divide (crossScalar s2 c1) (crossScalar s1 s2) with
  | some s, some t =>
    if 0 ≤ s ∧ s < 1 ∧ 0 ≤ t ∧ t ≤ 1 then some (a.p1.add (s1.scale t)) else none
  | _, _ => none

/-- The per-edge candidate collection of `intersect_poly` in
src/core/geom.rs: intersect each boundary edge (in the chosen mode) and keep
only candidates re-validated as coincident on that finite edge. -/
def rawCandidates (line : Line) (other : Polygon) (discrete : Bool) : List Point :=
  other.edges.filterMap fun boundary =>
    match (if discrete then intersectDiscrete line boundary else intersectInf line boundary) with
    | some p => if boundary.coincident p then some p else none
    | none => none

/-- Stable insertion of `x` behind the existing entries of equal or smaller
key, as a stable sort orders it. -/
def insertByKey (key : Point → ℚ) (x : Point) : List Point → List Point
  | [] => [x]
  | y :: ys => if key y ≤ key x then y :: insertByKey key x ys else x :: y :: ys

/-- Stable sort by key (the semantics of Rust's stable
`sort_by_key(|p| line.dist_along(p).to_rat())`; `to_rat` of the missing
scalar trait is the identity on the rational model). -/
def sortByKey (key : Point → ℚ) (l : List Point) : List Point :=
  l.foldl (fun acc x => insertByKey key x acc) []

/-- The running comparison of `Vec::dedup`: drop each element that compares
equal (epsilon point equality) to the last retained element. -/
def dedupGo (last : Point) : List Point → List Point
  | [] => []
  | y :: rest => if peq last y then dedupGo last rest else y :: dedupGo y rest

/-- `Vec::dedup` semantics: remove all but the first of consecutive equal
points, under the epsilon point equality. -/
def dedupEps : List Point → List Point
  | [] => []
  | x :: rest => x :: dedupGo x rest

/-- The candidate list of `intersect_poly` after coincidence re-validation,
sorting along the query line and deduplication. -/
def validCandidates (line : Line) (other : Polygon) (discrete : Bool) : List Point :=
  dedupEps (sortByKey (fun p => line.distAlong p) (rawCandidates line other discrete))

/-- Consecutive pairing of the sorted candidates (`candidates[2i],
candidates[2i+1]`). -/
def pairUp : List Point → List (Point × Point)
  | a :: b :: rest => (a, b) :: pairUp rest
  | _ => []

/-- `intersect_poly` of src/core/geom.rs: an odd candidate count is reported
(a console diagnostic in the source) and yields the empty result; an even
count pairs up into entry/exit segments. -/
def intersectPoly (line : Line) (other : Polygon) (discrete : Bool) : List (Point × Point) :=
  let candidates := validCandidates line other discrete
  if candidates.length % 2 ≠ 0 then [] else pairUp candidates

/-- `intersect_poly_discrete` of src/core/geom.rs. -/
def intersectPolyDiscrete (line : Line) (other : Polygon) : List (Point × Point) :=
  intersectPoly line other true

/-- `intersect_poly_inf` of src/core/geom.rs. -/
def intersectPolyInf (line : Line) (other : Polygon) : List (Point × Point) :=
  intersectPoly line other false

/-- `gradient` of src/core/geom.rs. -/
def gradient (l : Line) : Option ℚ := divide (l.p2.y - l.p1.y) (l.p2.x - l.p1.x)

/-- `reflect_matrix` of src/core/geom.rs: translate the fold line onto the
origin, rotate onto the axis, mirror, rotate and translate back; a separate
branch handles the undefined-gradient (vertical) line. -/
def reflectMatrix (vertex1 vertex2 : Point) : Matrix33 :=
  let l := Line.new vertex1 vertex2
  match gradient l with
  | some g =>
    let c := vertex1.y - g * vertex1.x
    let d := vertex2.sub vertex1
    ((((Matrix33.translate 0 (-c)).thenRotate (-d.y / vDistance d) (d.x / vDistance d)).thenScale
        1 (-1)).thenRotate (d.y / vDistance d) (d.x / vDistance d)).thenTranslate 0 c
  | none =>
    ((Matrix33.rotateSC 1 0).thenScale 1 (-1)).thenRotate (-1) 0

/-- `flip_polygon` of src/core/geom.rs: reflect every vertex, reverse the
point order, and compose the transform with the reflection. -/
def flipPolygon (poly : Polygon) (vertex1 vertex2 : Point) : Polygon :=
  let affine := reflectMatrix vertex1 vertex2
  { points := (poly.points.map affine.transform).reverse,
    transform := poly.transform.mul affine }

/-- The state of the boundary walk of `split_polygon`: the in-progress
polygons, the resume map from a pending cut point to the polygon index
waiting there, and the current polygon index. -/
structure SplitState where
  polys : List (List Point)
  resume : List (Point × Nat)
  cur : Nat
deriving DecidableEq

/-- Lookup in the resume map (`BTreeMap::get` keyed by points). -/
def resumeGet (resume : List (Point × Nat)) (k : Point) : Option Nat :=
  match resume.find? (fun e => peq e.1 k) with
  | some e => some e.2
  | none => none

/-- Insert in the resume map (`BTreeMap::insert` replaces an equal key). -/
def resumeInsert (resume : List (Point × Nat)) (k : Point) (v : Nat) : List (Point × Nat) :=
  (k, v) :: resume.filter (fun e => !peq e.1 k)

/-- Append a point to the polygon at index `i` (`polys[cur].push(...)`). -/
def pushAt (polys : List (List Point)) (i : Nat) (p : Point) : List (List Point) :=
  polys.set i (polys.getD i [] ++ [p])

/-- The inner candidate scan of `split_polygon`: the first intersection pair
one of whose cut points is coincident with this edge and is not the edge's
start, oriented so the reached point comes first. -/
def findCo (edge : Line) : List (Point × Point) → Option (Point × Point)
  | [] => none
  | (a, b) :: rest =>
    if edge.coincident a && !peq edge.p1 a then some (a, b)
    else if edge.coincident b && !peq edge.p1 b then some (b, a)
    else findCo edge rest

/-- One edge of the boundary walk of `split_polygon` in src/core/geom.rs:
append the edge's start to the current polygon; on reaching a cut point,
append it, register the paired point in the resume map, switch to the
polygon registered for the reached point (or start a new one), and append
the cut point there unless it is the edge's end. -/
def splitStep (intersections : List (Point × Point)) (st : SplitState) (edge : Line) :
    SplitState :=
  let polys := pushAt st.polys st.cur edge.p1
  match findCo edge intersections with
  | none => { st with polys := polys }
  | some (a, b) =>
    let polys := pushAt polys st.cur a
    let resume := resumeInsert st.resume b st.cur
    let (polys, cur) :=
      match resumeGet resume a with
      | some p => (polys, p)
      | none => (polys ++ [[]], polys.length)
    let polys := if !peq edge.p2 a then pushAt polys cur a else polys
    { polys := polys, resume := resume, cur := cur }

/-- `split_polygon` of src/core/geom.rs: cut points from the infinite-mode
intersection, then the resume-map boundary walk; every resulting point list
is re-wrapped with the parent's transform. -/
def splitPolygon (poly : Polygon) (v1 v2 : Point) : List Polygon :=
  let fold := Line.new v1 v2
  let intersections := intersectPolyInf fold poly
  let final := poly.edges.foldl (splitStep intersections)
    ⟨[[]], [], 0⟩
  final.polys.map fun points => Polygon.withTransform points poly.transform

/-- The fragment loop of `fold_polygon` in src/core/geom.rs: every fragment
that does not contain the anchor is replaced by its flipped image. -/
def foldFragments (vertex1 vertex2 anchor : Point) : List Polygon → List Polygon
  | [] => []
  | q :: rest =>
    (if q.contains anchor then q else flipPolygon q vertex1 vertex2) ::
      foldFragments vertex1 vertex2 anchor rest

/-- `fold_polygon` of src/core/geom.rs: split, then flip the fragments not
containing the anchor. -/
def foldPolygon (poly : Polygon) (vertex1 vertex2 anchor : Point) : List Polygon :=
  foldFragments vertex1 vertex2 anchor (splitPolygon poly vertex1 vertex2)

/-- The rounding of Rust's `f64::round` (used by `qntz`): half away from
zero. -/
def rustRound (q : ℚ) : ℤ :=
  if 0 ≤ q then ratFloor (q + 1 / 2) else -ratFloor (-q + 1 / 2)

/-- The epsilon literal of src/write.rs (`0.000000001`). -/
def qntzEps : ℚ := 1 / 1000000000

/-- `qntz` of src/write.rs: round each coordinate to the nearest multiple of
`1/base`; keep the rounded point only when both coordinates moved by less
than the threshold, else return the point unchanged. -/
def qntz (p : Point) (base : ℤ) : Point :=
  let xnum := rustRound (p.x * base)
  let ynum := rustRound (p.y * base)
  let p2 : Point := ⟨(xnum : ℚ) / (base : ℚ), (ynum : ℚ) / (base : ℚ)⟩
  if |p.x - p2.x| < qntzEps ∧ |p.y - p2.y| < qntzEps then p2 else p

/-- The point with both coordinates rounded to the nearest multiple of
`1/base`, as `qntz` computes it. -/
def roundedPoint (p : Point) (base : ℤ) : Point :=
  ⟨(rustRound (p.x * base) : ℚ) / (base : ℚ), (rustRound (p.y * base) : ℚ) / (base : ℚ)⟩

/-! Concrete geometric inputs used by the claim witnesses and
counterexamples. -/

/-- A simple hexagon++ of area 6 whose top boundary touches the horizontal
line `y = 1` exactly at its two peaks `(1,1)` and `(3,1)` without crossing
it: points `(0,0), (1,1), (2,0), (3,1), (4,0), (4,-1), (0,-1)`. -/
def tangentPoly : Polygon :=
  Polygon.new [⟨0, 0⟩, ⟨1, 1⟩, ⟨2, 0⟩, ⟨3, 1⟩, ⟨4, 0⟩, ⟨4, -1⟩, ⟨0, -1⟩]

/-- The unit square. -/
def unitSquare : Polygon := Polygon.new [⟨0, 0⟩, ⟨1, 0⟩, ⟨1, 1⟩, ⟨0, 1⟩]

/-- The 2×2 square of the repository's own fold test. -/
def squareTwo : Polygon := Polygon.new [⟨0, 0⟩, ⟨2, 0⟩, ⟨2, 2⟩, ⟨0, 2⟩]

/-- A pentagon whose boundary meets the line `y = 1` in three candidate
points (one crossing at `(0,1)` and the endpoints `(4,1)`, `(2,1)` of a
boundary edge lying on the line): points
`(0,0), (4,0), (4,1), (2,1), (0,2)`. -/
def oddCandidatePoly : Polygon :=
  Polygon.new [⟨0, 0⟩, ⟨4, 0⟩, ⟨4, 1⟩, ⟨2, 1⟩, ⟨0, 2⟩]

/-- A point whose x coordinate quantizes with error far below epsilon while
its y coordinate cannot be quantized (base 10): `(1/10 + 1e-12, 1/3)`. -/
def mixedPoint : Point := ⟨1 / 10 + 1 / 1000000000000, 1 / 3⟩

/-! Helper lemmas shared by the claim theorems. -/

/-- The fragment loop of `fold_polygon` is a map over the fragments. -/
theorem foldFragments_eq_map (v1 v2 anchor : Point) (l : List Polygon) :
    foldFragments v1 v2 anchor l =
      l.map fun q => if q.contains anchor then q else flipPolygon q v1 v2 := by
  induction l with
  | nil => rfl
  | cons q rest ih => simp [foldFragments, ih]

/-- With no intersections the boundary walk only appends the edge start
points to the single polygon. -/
theorem foldl_splitStep_nil (edges : List Line) (acc : List Point)
    (r : List (Point × Nat)) :
    edges.foldl (splitStep []) ⟨[acc], r, 0⟩ =
      ⟨[acc ++ edges.map Line.p1], r, 0⟩ := by
  induction edges generalizing acc with
  | nil => simp
  | cons e es ih =>
    have hstep : splitStep [] ⟨[acc], r, 0⟩ e = ⟨[acc ++ [e.p1]], r, 0⟩ := by
      simp [splitStep, findCo, pushAt]
    simp only [List.foldl_cons, hstep, ih, List.map_cons, List.append_assoc,
      List.singleton_append]

/-- Mapping the start point over zipped edges recovers the first list. -/
theorem map_p1_zipWith (xs ys : List Point) (h : xs.length ≤ ys.length) :
    (List.zipWith Line.mk xs ys).map Line.p1 = xs := by
  induction xs generalizing ys with
  | nil => simp
  | cons x xs ih =>
    cases ys with
    | nil => simp at h
    | cons y ys =>
      simp only [List.zipWith_cons_cons, List.map_cons]
      exact congrArg (x :: ·) (ih ys (by simpa using h))

/-- `rotatePrev` preserves the length. -/
theorem rotatePrev_length {α : Type} (l : List α) :
    (rotatePrev l).length = l.length := by
  cases l with
  | nil => rfl
  | cons a as => simp [rotatePrev]; omega

/-- The edge start points of a polygon are its points rotated backward. -/
theorem edges_map_p1 (poly : Polygon) :
    poly.edges.map Line.p1 = rotatePrev poly.points := by
  apply map_p1_zipWith
  exact le_of_eq (rotatePrev_length poly.points)

/-- If every fragment contains the anchor, the fragment loop is the
identity. -/
theorem foldFragments_id (v1 v2 anchor : Point) (l : List Polygon)
    (h : ∀ q ∈ l, q.contains anchor) : foldFragments v1 v2 anchor l = l := by
  induction l with
  | nil => rfl
  | cons q rest ih =>
    simp only [foldFragments, h q (List.mem_cons_self q rest), if_pos]
    exact congrArg (q :: ·) (ih fun r hr => h r (List.mem_cons_of_mem q hr))

/-! The claim theorems. -/

/-- C1: `fold_polygon(poly, v1, v2, anchor)` returns exactly the fragments of
`split_polygon(poly, v1, v2)`, each fragment that does not contain the anchor
(per `Polygon::contains`) replaced by its `flip_polygon` image across the
fold line, and each fragment containing the anchor returned unchanged. -/
theorem fold_polygon_is_split_with_flips (poly : Polygon) (v1 v2 anchor : Point) :
    foldPolygon poly v1 v2 anchor =
      (splitPolygon poly v1 v2).map
        fun q => if q.contains anchor then q else flipPolygon q v1 v2 := by
  unfold foldPolygon
  exact foldFragments_eq_map v1 v2 anchor (splitPolygon poly v1 v2)

/-- C9: whenever every fragment produced by `split_polygon` contains the
anchor, `fold_polygon` returns all fragments unreflected. -/
theorem fold_polygon_all_contain_unreflected (poly : Polygon) (v1 v2 anchor : Point)
    (h : ∀ q ∈ splitPolygon poly v1 v2, q.contains anchor) :
    foldPolygon poly v1 v2 anchor = splitPolygon poly v1 v2 := by
  unfold foldPolygon
  exact foldFragments_id v1 v2 anchor (splitPolygon poly v1 v2) h

/-- C9 witness: the 2×2 square folded along `y = 1` splits into two
fragments, the anchor `(1,1)` lies on the shared cut segment, both fragments
contain it (boundary coincidence), and `fold_polygon` returns both
unreflected. -/
theorem fold_polygon_anchor_on_cut_witness :
    (splitPolygon squareTwo ⟨0, 1⟩ ⟨2, 1⟩).length = 2 ∧
      foldPolygon squareTwo ⟨0, 1⟩ ⟨2, 1⟩ ⟨1, 1⟩ = splitPolygon squareTwo ⟨0, 1⟩ ⟨2, 1⟩ :=
  ⟨by decide,
   fold_polygon_all_contain_unreflected squareTwo ⟨0, 1⟩ ⟨2, 1⟩ ⟨1, 1⟩ (by decide)⟩

/-- C3 counterexample: for the unit square and the non-crossing fold line
`(5,0)-(5,1)`, `intersect_poly_inf` finds no crossings, yet the single
fragment returned by `split_polygon` is not the original polygon with the
same point sequence: its point list is rotated by one position. -/
theorem split_polygon_no_crossing_counterexample :
    intersectPolyInf (Line.new ⟨5, 0⟩ ⟨5, 1⟩) unitSquare = [] ∧
      splitPolygon unitSquare ⟨5, 0⟩ ⟨5, 1⟩ ≠ [unitSquare] ∧
      splitPolygon unitSquare ⟨5, 0⟩ ⟨5, 1⟩ =
        [Polygon.withTransform [⟨0, 1⟩, ⟨0, 0⟩, ⟨1, 0⟩, ⟨1, 1⟩] Matrix33.identity] := by
  refine ⟨by decide, by decide, by decide⟩

/-- C3 amended: when the fold line does not cross the polygon boundary at
all, `split_polygon` returns exactly one fragment carrying the unchanged
transform, whose point sequence is the original one rotated backward by one
position (the last point first) — the same closed boundary, re-based at the
last vertex. -/
theorem split_polygon_no_crossing_single_fragment (poly : Polygon) (v1 v2 : Point)
    (h : intersectPolyInf (Line.new v1 v2) poly = []) :
    splitPolygon poly v1 v2 =
      [Polygon.withTransform (rotatePrev poly.points) poly.transform] := by
  unfold splitPolygon
  simp only [h, foldl_splitStep_nil poly.edges [] [], List.nil_append, List.map_cons,
    List.map_nil, edges_map_p1]

/-- C3 amended witness: the unit square with the far fold line
`(5,0)-(5,1)`. -/
theorem split_polygon_no_crossing_single_fragment_witness :
    splitPolygon unitSquare ⟨5, 0⟩ ⟨5, 1⟩ =
      [Polygon.withTransform (rotatePrev unitSquare.points) unitSquare.transform] :=
  split_polygon_no_crossing_single_fragment unitSquare ⟨5, 0⟩ ⟨5, 1⟩ (by decide)

/-- C5: whenever the candidate list of `intersect_poly` (after per-edge
coincidence re-validation, sorting by `dist_along` and deduplication) has odd
length, `intersect_poly` returns the empty list of entry/exit pairs — never a
partial or guessed pairing.  (The console diagnostic the source prints on
this path is inline I/O; the condition that triggers it is exactly the odd
length.) -/
theorem intersect_poly_odd_returns_empty (line : Line) (poly : Polygon)
    (discrete : Bool) (h : (validCandidates line poly discrete).length % 2 = 1) :
    intersectPoly line poly discrete = [] := by
  unfold intersectPoly
  simp only []
  split
  · rfl
  · next hc => exact absurd (by omega) hc

/-- C5 witness: the pentagon `oddCandidatePoly` against the line `y = 1`
yields three validated candidates, and the intersection result is empty. -/
theorem intersect_poly_odd_witness :
    (validCandidates (Line.new ⟨0, 1⟩ ⟨4, 1⟩) oddCandidatePoly false).length % 2 = 1 ∧
      intersectPoly (Line.new ⟨0, 1⟩ ⟨4, 1⟩) oddCandidatePoly false = [] :=
  ⟨by decide,
   intersect_poly_odd_returns_empty (Line.new ⟨0, 1⟩ ⟨4, 1⟩) oddCandidatePoly false
     (by decide)⟩

/-- C6: applying the matrix product `translate(a,b) * translate(c,d)` to any
point (row-vector-on-the-left `Matrix33::transform`) equals translating
first by `(a,b)` and then by `(c,d)`: applying `A * B` applies `A` then
`B`. -/
theorem translate_mul_translate_composes (a b c d : ℚ) (p : Point) :
    ((Matrix33.translate a b).mul (Matrix33.translate c d)).transform p =
      (Matrix33.translate c d).transform ((Matrix33.translate a b).transform p) := by
  simp only [Matrix33.translate, Matrix33.new, Matrix33.mul, Matrix33.transform,
    Point.mk.injEq]
  constructor <;> ring

/-- `qntz` as one conditional: the rounded point if both coordinates moved
by less than the threshold, else the original point (definitional). -/
theorem qntz_eq_ite (p : Point) (base : ℤ) :
    qntz p base =
      if |p.x - (roundedPoint p base).x| < qntzEps ∧
          |p.y - (roundedPoint p base).y| < qntzEps
      then roundedPoint p base else p := rfl

/-- C7: `qntz(p, base)` either returns the point with both coordinates
rounded to the nearest multiple of `1/base` — and then both coordinates
moved by less than the threshold — or returns `p` unchanged; in either case
the result never differs from the input by the threshold or more in either
coordinate. -/
theorem qntz_within_epsilon (p : Point) (base : ℤ) (_hbase : base ≠ 0) :
    ((qntz p base = roundedPoint p base ∧
        |p.x - (roundedPoint p base).x| < qntzEps ∧
        |p.y - (roundedPoint p base).y| < qntzEps) ∨ qntz p base = p) ∧
      |(qntz p base).x - p.x| < qntzEps ∧ |(qntz p base).y - p.y| < qntzEps := by
  rw [qntz_eq_ite]
  by_cases h : |p.x - (roundedPoint p base).x| < qntzEps ∧
      |p.y - (roundedPoint p base).y| < qntzEps
  · rw [if_pos h]
    refine ⟨Or.inl ⟨rfl, h.1, h.2⟩, ?_, ?_⟩
    · rw [abs_sub_comm]
      exact h.1
    · rw [abs_sub_comm]
      exact h.2
  · rw [if_neg h]
    refine ⟨Or.inr rfl, ?_, ?_⟩ <;> norm_num [qntzEps]

/-- C7 witness: the point `(1/3, 1/3)` with base 10. -/
theorem qntz_within_epsilon_witness :
    ((qntz ⟨1/3, 1/3⟩ 10 = roundedPoint ⟨1/3, 1/3⟩ 10 ∧
        |(1/3 : ℚ) - (roundedPoint ⟨1/3, 1/3⟩ 10).x| < qntzEps ∧
        |(1/3 : ℚ) - (roundedPoint ⟨1/3, 1/3⟩ 10).y| < qntzEps) ∨
      qntz ⟨1/3, 1/3⟩ 10 = ⟨1/3, 1/3⟩) ∧
      |(qntz ⟨1/3, 1/3⟩ 10).x - 1/3| < qntzEps ∧ |(qntz ⟨1/3, 1/3⟩ 10).y - 1/3| < qntzEps :=
  qntz_within_epsilon ⟨1/3, 1/3⟩ 10 (by decide)

/-- C10: the acceptance decision of `qntz` is all-or-nothing over the whole
point: the result is either the point with both coordinates quantized or
exactly the original point, never a mix. -/
theorem qntz_all_or_nothing (p : Point) (base : ℤ) (_hbase : base ≠ 0) :
    qntz p base = roundedPoint p base ∨ qntz p base = p := by
  rw [qntz_eq_ite]
  by_cases h : |p.x - (roundedPoint p base).x| < qntzEps ∧
      |p.y - (roundedPoint p base).y| < qntzEps
  · rw [if_pos h]
    exact Or.inl rfl
  · rw [if_neg h]
    exact Or.inr rfl

/-- C10 witness: for `mixedPoint = (1/10 + 1e-12, 1/3)` with base 10 the x
coordinate alone would quantize (error 1e-12), the y coordinate cannot, and
the whole point is returned unchanged — the x coordinate is not quantized on
its own. -/
theorem qntz_all_or_nothing_witness :
    qntz mixedPoint 10 = mixedPoint ∧
      mixedPoint.x ≠ (roundedPoint mixedPoint 10).x ∧
      (qntz mixedPoint 10 = roundedPoint mixedPoint 10 ∨ qntz mixedPoint 10 = mixedPoint) :=
  ⟨by decide, by decide, qntz_all_or_nothing mixedPoint 10 (by decide)⟩

/-- C4: `intersect_discrete(a, b)` returns a point exactly when both
parameters exist (non-epsilon-zero denominator) and satisfy `0 ≤ s < 1` and
`0 ≤ t ≤ 1`, the point being `a.p1 + (a.p2 - a.p1) * t`; in particular it
yields `(0.5, 0.5)` on `(0,0)-(1,1)` versus `(0,1)-(1,0)`, and nothing on
`(0,0)-(0.25,0.25)` versus `(0,1)-(1,0)`. -/
theorem intersect_discrete_parameter_bounds :
    (∀ (a b : Line) (p : Point),
        intersectDiscrete a b = some p ↔
          ∃ s t : ℚ,
            divide (crossScalar (a.p2.sub a.p1) (a.p1.sub b.p1))
                (crossScalar (a.p2.sub a.p1) (b.p2.sub b.p1)) = some s ∧
              divide (crossScalar (b.p2.sub b.p1) (a.p1.sub b.p1))
                  (crossScalar (a.p2.sub a.p1) (b.p2.sub b.p1)) = some t ∧
                0 ≤ s ∧ s < 1 ∧ 0 ≤ t ∧ t ≤ 1 ∧
                  p = a.p1.add ((a.p2.sub a.p1).scale t)) ∧
      intersectDiscrete (Line.new ⟨0, 0⟩ ⟨1, 1⟩) (Line.new ⟨0, 1⟩ ⟨1, 0⟩) =
        some ⟨1/2, 1/2⟩ ∧
      intersectDiscrete (Line.new ⟨0, 0⟩ ⟨1/4, 1/4⟩) (Line.new ⟨0, 1⟩ ⟨1, 0⟩) = none := by
  refine ⟨?_, by decide, by decide⟩
  intro a b p
  constructor
  · intro h
    unfold intersectDiscrete at h
    simp only [] at h
    cases h1 : divide (crossScalar (a.p2.sub a.p1) (a.p1.sub b.p1))
        (crossScalar (a.p2.sub a.p1) (b.p2.sub b.p1)) with
    | none => rw [h1] at h; simp at h
    | some s =>
      cases h2 : divide (crossScalar (b.p2.sub b.p1) (a.p1.sub b.p1))
          (crossScalar (a.p2.sub a.p1) (b.p2.sub b.p1)) with
      | none => rw [h1, h2] at h; simp at h
      | some t =>
        rw [h1, h2] at h
        simp only [] at h
        split at h
        · next hcond =>
          refine ⟨s, t, rfl, rfl, hcond.1, hcond.2.1, hcond.2.2.1, hcond.2.2.2, ?_⟩
          exact (Option.some.injEq _ _ ▸ h).symm
        · exact absurd h (by simp)
  · rintro ⟨s, t, hs, ht, h0s, h1s, h0t, h1t, rfl⟩
    unfold intersectDiscrete
    simp only []
    rw [hs, ht]
    simp only []
    rw [if_pos ⟨h0s, h1s, h0t, h1t⟩]

/-- C2 (code evaluated at the failing input): the fold line `(0,1)-(4,1)` is
tangent to `tangentPoly` at its two peaks; the validated candidate count is
even (2), so the split is "valid", yet the fragments returned by
`split_polygon` have total area 8 while the polygon has area 6 — the areas
are not equal within any epsilon. -/
theorem split_polygon_area_not_conserved :
    (validCandidates (Line.new ⟨0, 1⟩ ⟨4, 1⟩) tangentPoly false).length = 2 ∧
      intersectPolyInf (Line.new ⟨0, 1⟩ ⟨4, 1⟩) tangentPoly = [(⟨1, 1⟩, ⟨3, 1⟩)] ∧
      tangentPoly.area = 6 ∧
      ((splitPolygon tangentPoly ⟨0, 1⟩ ⟨4, 1⟩).map Polygon.area).sum = 8 ∧
      eqEps (((splitPolygon tangentPoly ⟨0, 1⟩ ⟨4, 1⟩).map Polygon.area).sum)
        tangentPoly.area = false := by
  refine ⟨by decide, by decide, by decide, by decide, by decide⟩

/-- C8 counterexample: `Polygon::new` performs no point-count check — a
two-point "polygon" is constructed and returned as an ordinary geometric
value (with the identity transform, and a computable area) rather than
failing an assertion. -/
theorem polygon_new_unchecked_counterexample :
    (Polygon.new [⟨0, 0⟩, ⟨1, 1⟩]).points.length = 2 ∧
      Polygon.new [⟨0, 0⟩, ⟨1, 1⟩] =
        Polygon.withTransform [⟨0, 0⟩, ⟨1, 1⟩] Matrix33.identity ∧
      (Polygon.new [⟨0, 0⟩, ⟨1, 1⟩]).area = 0 := by
  refine ⟨by decide, by decide, by decide⟩

/-- C8 amended: indexing a `Matrix33` outside `0..3` is a fatal assertion
failure (modelled `none`), and in-range indexing returns the entry; but
`Polygon::new` performs no fewer-than-3-points check: for every point list
it returns the polygon with exactly those points and the identity
transform. -/
theorem matrix_index_asserts_polygon_new_unchecked :
    (∀ (m : Matrix33) (r c : Nat), ¬(r < 3 ∧ c < 3) → m.indexChecked r c = none) ∧
      (∀ (m : Matrix33) (r c : Nat), r < 3 → c < 3 →
        m.indexChecked r c = some (m.entry r c)) ∧
      ∀ pts : List Point, Polygon.new pts = Polygon.withTransform pts Matrix33.identity := by
  refine ⟨?_, ?_, fun pts => rfl⟩
  · intro m r c h
    unfold Matrix33.indexChecked
    rw [if_neg]
    simp only [Bool.and_eq_true, decide_eq_true_eq]
    exact h
  · intro m r c h1 h2
    unfold Matrix33.indexChecked
    rw [if_pos]
    simp [h1, h2]

/-! Sanity checks replaying the repository's own unit tests against the
embedding. -/

/-- The `test_intersect_infinite` cases of geom.rs with exact coordinates:
`(0.1,0.3)-(0.25,0.75)` meets the infinite extension of `(1,0)-(1,1)` at
`(1,3)`, and the parallel vertical line `x = 2` meets it nowhere. -/
theorem intersect_inf_matches_repo_tests :
    intersectInf (Line.new ⟨1/10, 3/10⟩ ⟨1/4, 3/4⟩) (Line.new ⟨1, 0⟩ ⟨1, 1⟩) =
        some ⟨1, 3⟩ ∧
      intersectInf (Line.new ⟨2, 3/10⟩ ⟨2, 3/4⟩) (Line.new ⟨1, 0⟩ ⟨1, 1⟩) = none := by
  refine ⟨by decide, by decide⟩

/-- The `fold_polygon_test` of geom.rs: folding the 2×2 square along `y = 1`
with anchor `(0,2)` yields two fragments — the anchor half unreflected and
the bottom half reflected across the fold line — both with point set
`{(0,1),(0,2),(2,2),(2,1)}`, as the repository test asserts. -/
theorem fold_polygon_matches_repo_test :
    (foldPolygon squareTwo ⟨0, 1⟩ ⟨2, 1⟩ ⟨0, 2⟩).map Polygon.points =
      [[⟨0, 2⟩, ⟨0, 1⟩, ⟨2, 1⟩, ⟨2, 2⟩], [⟨2, 1⟩, ⟨2, 2⟩, ⟨0, 2⟩, ⟨0, 1⟩]] := by decide

end SuperLegit
